import Mathlib

/-!
Shallow embedding of the streaming chat client in `src/app/page.tsx`
(shadow-container-react): the SSE frame decoder (buffer/line loop of
`handleSubmit`, lines 158-187) and the conversation reducer (the
`switch (data.type)` applied through `setMessages`, lines 193-245),
together with `handleNewChat` (lines 63-83) and the transport-failure
catch block (lines 258-266).

Conventions of the embedding:
* wall-clock instants (`Date.now()`, `performance.now()`) are `Nat`
  millisecond values passed in explicitly;
* JavaScript values carried by events (`arguments`, `result`) are the
  JSON-like type `JsValue`, with JavaScript truthiness as `JsValue.truthy`;
* TypeScript optional fields become `Option`;
* strings inside the decoder are `List Char`, so that chunk
  concatenation is list append.
-/

/-- JSON-like JavaScript value, as produced by `JSON.parse`. -/
inductive JsValue where
  | vNull : JsValue
  | vBool : Bool → JsValue
  | vNum : Int → JsValue
  | vStr : String → JsValue
  | vArr : List JsValue → JsValue
  | vObj : List (String × JsValue) → JsValue

/-- JavaScript truthiness of a `JsValue`: `null`, `false`, `0`
and the empty string are falsy, every object and array is truthy. -/
def JsValue.truthy : JsValue → Bool
  | .vNull => false
  | .vBool b => b
  | .vNum n => n != 0
  | .vStr s => s != ""
  | .vArr _ => true
  | .vObj _ => true

/-- The test `!fc.result` from the `function_result` branch
(page.tsx line 210): a missing (`undefined`) result and a falsy stored
result are indistinguishable there. -/
def resultFalsy : Option JsValue → Bool
  | none => true
  | some v => !v.truthy

/-- The `interface FunctionCall` record (page.tsx lines 17-23). -/
structure FunctionCall where
  id : String
  name : String
  arguments : List (String × JsValue)
  result : Option JsValue
  timestamp : Nat

/-- The `type: 'user' | 'assistant'` discriminator of `interface Message`. -/
inductive MsgRole where
  | user : MsgRole
  | assistant : MsgRole

/-- The `interface Message` record (page.tsx lines 7-15). -/
structure Message where
  id : String
  content : String
  type : MsgRole
  timestamp : Nat
  functionCalls : Option (List FunctionCall)
  isStreaming : Option Bool
  responseTime : Option Nat

/-- The SSE payload events discriminated by `data.type`
(page.tsx lines 197-242); the fields are the ones the handler reads. -/
inductive StreamEvent where
  | function_call : String → List (String × JsValue) → StreamEvent
  | function_result : String → JsValue → StreamEvent
  | thread_info : Option String → StreamEvent
  | content : String → StreamEvent
  | intermediate : StreamEvent
  | stream_complete : StreamEvent
  | error : String → StreamEvent

/-- One step of the `switch (data.type)` on the message copy
`updatedMsg = { ...msg }` (page.tsx lines 196-244): `start` is the
`performance.now()` captured before the fetch, `now` the clock value at
event arrival (the `Date.now()` in the generated id and the `endTime` of
`stream_complete`; `Math.round(endTime - startTime)` becomes truncated
`Nat` subtraction, exact whenever `start ≤ now`). -/
def updateMsg (start now : Nat) (e : StreamEvent) (msg : Message) : Message :=
  match e with
  | .function_call fname args =>
      let newFunctionCall : FunctionCall :=
        { id := fname ++ "-" ++ toString now, name := fname,
          arguments := args, result := none, timestamp := now }
      { msg with functionCalls := some (msg.functionCalls.getD [] ++ [newFunctionCall]) }
  | .function_result fname res =>
      let updatedCalls : List FunctionCall :=
        (msg.functionCalls.getD []).map fun fc =>
          if fc.name == fname && resultFalsy fc.result then
            { fc with result := some res }
          else fc
      { msg with functionCalls := some updatedCalls }
  | .thread_info _ => msg
  | .content c => { msg with content := msg.content ++ c }
  | .intermediate => msg
  | .stream_complete =>
      { msg with isStreaming := some false, responseTime := some (now - start) }
  | .error err =>
      { msg with content := "Error: " ++ err, isStreaming := some false }

/-- The two pieces of React state the stream handler mutates:
`messages` and `threadId`. -/
structure ChatState where
  messages : List Message
  threadId : String

/-- Applying one parsed SSE event: `setMessages(prev => prev.map(...))`
with the id guard `if (msg.id !== assistantMessageId) return msg`
(page.tsx line 194), plus the `setThreadId` call fired from the
`thread_info` branch of a matching message (lines 216-221); the branch
runs only when some message carries the active assistant id, and only a
truthy (non-empty) `thread_id` is stored. -/
def applyData (start now : Nat) (assistantId : String) (e : StreamEvent)
    (s : ChatState) : ChatState :=
  { messages := s.messages.map fun msg =>
      if msg.id != assistantId then msg else updateMsg start now e msg,
    threadId :=
      match e with
      | .thread_info tid? =>
          match tid? with
          | some tid =>
              if (s.messages.any fun m => m.id == assistantId) && tid != "" then tid
              else s.threadId
          | none => s.threadId
      | _ => s.threadId }

/-- One `data:` payload: `JSON.parse` is a host builtin, so its outcome
is modelled as `Option StreamEvent`; `none` is the parse failure caught
at page.tsx lines 247-249, whose handler only logs and leaves every
piece of state untouched. -/
def applyPayload (start now : Nat) (aid : String) (p : Option StreamEvent)
    (s : ChatState) : ChatState :=
  match p with
  | none => s
  | some e => applyData start now aid e s

/-- Folding a sequence of `(payload, arrival time)` pairs through
`applyPayload`. -/
def applyPayloads (start : Nat) (aid : String)
    (ps : List (Option StreamEvent × Nat)) (s : ChatState) : ChatState :=
  ps.foldl (fun st p => applyPayload start p.2 aid p.1 st) s

/-- Folding `(event, arrival time)` pairs over one message record. -/
def applyEventsMsg (start : Nat) (evs : List (StreamEvent × Nat))
    (msg : Message) : Message :=
  evs.foldl (fun m e => updateMsg start e.2 e.1 m) msg

/-- The welcome message (page.tsx lines 27-32 and 65-70). -/
def welcomeMessage (now : Nat) : Message :=
  { id := "1",
    content := "Hello and welcome to Shadow! How can I help you today?",
    type := .assistant, timestamp := now,
    functionCalls := none, isStreaming := none, responseTime := none }

/-- Model of `handleNewChat` (page.tsx lines 63-83), restricted to the state the
reducer reads: the message list is reset to the welcome message and
`threadId` is cleared. -/
def handleNewChat (now : Nat) (_s : ChatState) : ChatState :=
  { messages := [welcomeMessage now], threadId := "" }

/-- The user message appended at submit (page.tsx lines 93-100). -/
def userMessage (now : Nat) (query : String) : Message :=
  { id := toString now, content := query, type := .user, timestamp := now,
    functionCalls := none, isStreaming := none, responseTime := none }

/-- The id `(Date.now() + 1).toString()` (page.tsx line 106). -/
def assistantMessageId (now : Nat) : String := toString (now + 1)

/-- The empty streaming assistant message (page.tsx lines 107-114). -/
def assistantMessage (now : Nat) : Message :=
  { id := assistantMessageId now, content := "", type := .assistant,
    timestamp := now, functionCalls := some [], isStreaming := some true,
    responseTime := none }

/-- The message-list effect of starting an exchange in `handleSubmit`
(page.tsx lines 100 and 116): both `Date.now()` reads of the handler are
modelled with the same millisecond `now`. -/
def beginExchange (now : Nat) (query : String) (s : ChatState) : ChatState :=
  { s with messages :=
      s.messages ++ [userMessage now query, assistantMessage now] }

/-- The transport-failure catch block (page.tsx lines 258-266). -/
def applyCatch (aid : String) (errText : String) (s : ChatState) : ChatState :=
  { s with messages := s.messages.map fun msg =>
      if msg.id == aid then
        { msg with
          content := "Sorry, I encountered an error: " ++ errText,
          isStreaming := some false }
      else msg }

/-- JavaScript `String.prototype.trim` whitespace, restricted to the
whitespace characters that occur in SSE frames. -/
def isJsWs (c : Char) : Bool := c == ' ' || c == '\t' || c == '\n' || c == '\r'

/-- JavaScript `line.trim()` on a character list. -/
def trimChars (l : List Char) : List Char :=
  ((l.dropWhile isJsWs).reverse.dropWhile isJsWs).reverse

/-- JavaScript `line.startsWith(p)` on character lists (pattern first). -/
def startsWithChars : List Char → List Char → Bool
  | [], _ => true
  | _ :: _, [] => false
  | p :: ps, c :: cs => p == c && startsWithChars ps cs

/-- The inner `while ((newlineIndex = buffer.indexOf('\n')) !== -1)` loop
(page.tsx lines 170-173): splits the buffer into the sequence of
completed lines (the text before each newline, with the newline removed)
and the remainder kept as the next carry-over buffer. -/
def splitNl : List Char → List (List Char) × List Char
  | [] => ([], [])
  | c :: cs =>
      if c == '\n' then
        ([] :: (splitNl cs).1, (splitNl cs).2)
      else
        match splitNl cs with
        | ([], r) => ([], c :: r)
        | (l :: ls, r) => ((c :: l) :: ls, r)

/-- Classification of one completed line (page.tsx lines 172-187):
trim, drop empty lines and `event:` lines, strip the 5-character `data:`
marker and trim to obtain the payload; a non-empty payload is yielded,
anything else is protocol noise and is dropped. -/
def lineToPayload (rawLine : List Char) : Option (List Char) :=
  let line := trimChars rawLine
  if line == [] then none
  else if startsWithChars "event:".toList line then none
  else if startsWithChars "data:".toList line then
    let dataStr := trimChars (line.drop 5)
    if dataStr == [] then none else some dataStr
  else none

/-- One iteration of the outer read loop for one chunk
(page.tsx lines 166-173): append the chunk to the carry-over buffer and
move every completed line out of the buffer. -/
def processChunk (st : List (List Char) × List Char) (chunk : List Char) :
    List (List Char) × List Char :=
  (st.1 ++ (splitNl (st.2 ++ chunk)).1, (splitNl (st.2 ++ chunk)).2)

/-- Feeding a whole sequence of chunks, starting from an empty buffer;
the first component is the sequence of completed lines, the second the
buffer content that is discarded when `done` breaks the read loop
(page.tsx line 163). -/
def feedChunks (chunks : List (List Char)) : List (List Char) × List Char :=
  chunks.foldl processChunk ([], [])

/-- The payload strings the decoder hands to `JSON.parse`, in order. -/
def decodePayloads (chunks : List (List Char)) : List (List Char) :=
  (feedChunks chunks).1.filterMap lineToPayload

/-- Right-fold concatenation of content fragments, in arrival order. -/
def joinFrags : List String → String
  | [] => ""
  | s :: rest => s ++ joinFrags rest

/-- Concrete test vector: a second unresolved call to `f`. -/
def fcUnresolvedF2 : FunctionCall :=
  { id := "f-2", name := "f", arguments := [], result := none, timestamp := 2 }

/-- Concrete test vector: an assistant message holding two unresolved
calls to `f`. -/
def msgTwoUnresolvedF : Message :=
  { assistantMessage 0 with
    functionCalls := some
      [{ id := "f-1", name := "f", arguments := [], result := none, timestamp := 1 },
       fcUnresolvedF2] }

/-! ## Frame decoder lemmas -/

/-- The carry-over buffer left by the line loop never contains a newline. -/
theorem splitNl_rem_no_newline : ∀ l : List Char, '\n' ∉ (splitNl l).2 := by
  intro l
  induction l with
  | nil => simp [splitNl]
  | cons c cs ih =>
    rcases hs : splitNl cs with ⟨ls, r⟩
    rw [hs] at ih
    by_cases hc : c = '\n'
    · simpa [splitNl, hc, hs] using ih
    · cases ls with
      | nil =>
        simp only [splitNl, beq_iff_eq, hc, if_false, hs]
        simp only [List.mem_cons, not_or]
        exact ⟨fun h => hc h.symm, ih⟩
      | cons l0 ls' => simpa [splitNl, hc, hs] using ih

/-- A newline-free text yields no completed line and stays in the buffer. -/
theorem splitNl_of_no_newline : ∀ l : List Char, '\n' ∉ l → splitNl l = ([], l) := by
  intro l
  induction l with
  | nil => intro _; simp [splitNl]
  | cons c cs ih =>
    intro h
    simp only [List.mem_cons, not_or] at h
    obtain ⟨h1, h2⟩ := h
    simp [splitNl, Ne.symm h1, ih h2]

/-- Splitting a concatenation: the lines of `x ++ y` are the lines of `x`
followed by the lines obtained after prepending the remainder of `x` to
`y`, which is exactly what the chunk loop computes. -/
theorem splitNl_append (x y : List Char) :
    splitNl (x ++ y) =
      ((splitNl x).1 ++ (splitNl ((splitNl x).2 ++ y)).1,
       (splitNl ((splitNl x).2 ++ y)).2) := by
  induction x with
  | nil => simp [splitNl]
  | cons c cs ih =>
    by_cases hc : c = '\n'
    · subst hc
      simp [splitNl, ih]
    · rcases hs : splitNl cs with ⟨ls, r⟩
      rw [hs] at ih
      rcases hb : splitNl (r ++ y) with ⟨bs, br⟩
      rw [hb] at ih
      cases ls with
      | nil =>
        cases bs with
        | nil => simp_all [splitNl, hc]
        | cons b0 bs' => simp_all [splitNl, hc]
      | cons l0 ls' => simp_all [splitNl, hc]

/-- Unfolding the chunk fold: starting from a newline-free buffer, the
emitted lines are those of the buffer followed by all the input text. -/
theorem foldl_processChunk_eq (cs : List (List Char)) :
    ∀ acc : List (List Char), ∀ buf : List Char, '\n' ∉ buf →
      cs.foldl processChunk (acc, buf) =
        (acc ++ (splitNl (buf ++ cs.flatten)).1, (splitNl (buf ++ cs.flatten)).2) := by
  induction cs with
  | nil =>
    intro acc buf h
    simp [splitNl_of_no_newline buf h]
  | cons c cs ih =>
    intro acc buf h
    simp only [List.foldl_cons, processChunk]
    rw [ih (acc ++ (splitNl (buf ++ c)).1) (splitNl (buf ++ c)).2
          (splitNl_rem_no_newline _)]
    have hj : buf ++ (c :: cs).flatten = (buf ++ c) ++ cs.flatten := by
      simp [List.flatten_cons]
    rw [hj, splitNl_append (buf ++ c) cs.flatten]
    simp [List.append_assoc]

/-- The decoder is a function of the concatenation of its chunks. -/
theorem feedChunks_eq (cs : List (List Char)) : feedChunks cs = splitNl cs.flatten := by
  have h := foldl_processChunk_eq cs [] [] (by simp)
  simp only [feedChunks, List.nil_append] at h ⊢
  rw [h]

/-- C6: chunk-boundary invariance of the frame decoder — for any way of
splitting the input text into chunks, the decoder yields exactly the
same payload strings, in the same order, as when the whole text arrives
in one chunk; in particular any split of one logical `data:` line across
two or more chunks yields the identical single payload. -/
theorem c6_chunk_boundary_invariance (chunks : List (List Char)) :
    decodePayloads chunks = decodePayloads [chunks.flatten] := by
  simp [decodePayloads, feedChunks_eq]

/-- C9: a trailing chunk with no newline only ever sits in the carry-over
buffer, which is discarded at end-of-stream, so it contributes no payload
string (and hence no event reaches the reducer). -/
theorem c9_trailing_buffer_discarded (chunks : List (List Char)) (t : List Char)
    (h : '\n' ∉ t) :
    decodePayloads (chunks ++ [t]) = decodePayloads chunks := by
  have hA : '\n' ∉ (splitNl chunks.flatten).2 ++ t := by
    simp only [List.mem_append, not_or]
    exact ⟨splitNl_rem_no_newline _, h⟩
  simp only [decodePayloads, feedChunks_eq]
  rw [List.flatten_append, splitNl_append]
  simp [splitNl_of_no_newline _ hA]

/-- Witness for C9 at a concrete input. -/
theorem c9_witness :
    '\n' ∉ "data: y".toList ∧
      decodePayloads ["data: x\n".toList, "data: y".toList]
        = decodePayloads ["data: x\n".toList] :=
  ⟨by decide, c9_trailing_buffer_discarded ["data: x\n".toList] "data: y".toList (by decide)⟩

/-! ## Conversation reducer lemmas -/

/-- C7: content events append their fragments in arrival order, so the
final content is the initial content followed by the concatenation of
the fragments in that order (`content("a")`, `content("b")`,
`content("c")` yields `"abc"`). -/
theorem c7_content_appends_in_order (start : Nat) (msg : Message)
    (frags : List (String × Nat)) :
    (applyEventsMsg start (frags.map fun p => (StreamEvent.content p.1, p.2)) msg).content
      = msg.content ++ joinFrags (frags.map Prod.fst) := by
  induction frags generalizing msg with
  | nil => simp [applyEventsMsg, joinFrags]
  | cons p ps ih =>
    simp only [List.map_cons, applyEventsMsg, List.foldl_cons]
    have h := ih (updateMsg start p.2 (StreamEvent.content p.1) msg)
    simp only [applyEventsMsg] at h
    rw [h]
    simp [updateMsg, joinFrags, String.append_assoc]

/-- No event ever turns `isStreaming` back on. -/
theorem updateMsg_isStreaming_false (start now : Nat) (e : StreamEvent)
    (m : Message) (h : m.isStreaming = some false) :
    (updateMsg start now e m).isStreaming = some false := by
  cases e <;> simp [updateMsg, h]

/-- C2 (amended): once a `stream_complete` or `error` event has set
`isStreaming` to `false`, it stays `false` under every further event —
but the record itself is not frozen (see the counterexample: a later
`content` event still appends). -/
theorem c2_streaming_stays_false (start : Nat) (evs : List (StreamEvent × Nat))
    (msg : Message) (h : msg.isStreaming = some false) :
    (applyEventsMsg start evs msg).isStreaming = some false := by
  induction evs generalizing msg with
  | nil => simpa [applyEventsMsg] using h
  | cons e es ih =>
    simp only [applyEventsMsg, List.foldl_cons]
    exact ih _ (updateMsg_isStreaming_false _ _ _ _ h)

/-- Witness for C2 at a concrete input. -/
theorem c2_witness :
    (updateMsg 0 5 StreamEvent.stream_complete (assistantMessage 0)).isStreaming
        = some false
      ∧ (applyEventsMsg 0 [(StreamEvent.content "x", 6), (StreamEvent.stream_complete, 7)]
          (updateMsg 0 5 StreamEvent.stream_complete (assistantMessage 0))).isStreaming
        = some false :=
  ⟨rfl, c2_streaming_stays_false 0 _ _ rfl⟩

/-- Counterexample to C2 as stated: after `stream_complete` the switch
has no terminal guard, so a later `content` event still mutates the
record — its content changes from `""` to `"x"`. -/
theorem c2_counterexample :
    (updateMsg 0 6 (StreamEvent.content "x")
        (updateMsg 0 5 StreamEvent.stream_complete (assistantMessage 0))).content
      ≠ (updateMsg 0 5 StreamEvent.stream_complete (assistantMessage 0)).content := by
  decide

/-- A function-call record whose stored result is truthy is left
completely unchanged by any single event: `function_call` only appends,
and the `function_result` guard `!fc.result` rejects it. -/
theorem updateMsg_keeps_truthy_result (start now : Nat) (e : StreamEvent)
    (m : Message) (i : Nat) (fc : FunctionCall)
    (ht : resultFalsy fc.result = false)
    (hg : (m.functionCalls.getD [])[i]? = some fc) :
    ((updateMsg start now e m).functionCalls.getD [])[i]? = some fc := by
  cases e with
  | function_call fname args =>
      have hlen : i < (m.functionCalls.getD []).length :=
        (List.getElem?_eq_some_iff.mp hg).1
      simp only [updateMsg, Option.getD_some]
      rw [List.getElem?_append_left hlen]
      exact hg
  | function_result fname res =>
      simp only [updateMsg, Option.getD_some, List.getElem?_map, hg, Option.map_some']
      simp [ht]
  | thread_info tid? => simpa [updateMsg] using hg
  | content c => simpa [updateMsg] using hg
  | intermediate => simpa [updateMsg] using hg
  | stream_complete => simpa [updateMsg] using hg
  | error err => simpa [updateMsg] using hg

/-- C5 (amended): a function-call record's `result` is write-once as long
as the stored value is truthy — once a truthy result has been set, no
later event replaces it (or changes the record at all); but a falsy
stored result (`0`, `false`, `""`, `null`) passes the `!fc.result` test
and may be overwritten (see the counterexample). -/
theorem c5_truthy_result_never_replaced (start : Nat)
    (evs : List (StreamEvent × Nat)) (msg : Message) (i : Nat)
    (fc : FunctionCall) (v : JsValue) (hr : fc.result = some v)
    (hv : v.truthy = true)
    (hg : (msg.functionCalls.getD [])[i]? = some fc) :
    ((applyEventsMsg start evs msg).functionCalls.getD [])[i]? = some fc := by
  have ht : resultFalsy fc.result = false := by simp [resultFalsy, hr, hv]
  clear hr hv
  induction evs generalizing msg with
  | nil => simpa [applyEventsMsg] using hg
  | cons e es ih =>
    simp only [applyEventsMsg, List.foldl_cons]
    exact ih _ (updateMsg_keeps_truthy_result _ _ _ _ _ _ ht hg)

/-- Witness for C5 at a concrete input. -/
theorem c5_witness :
    (FunctionCall.result
        { id := "f-1", name := "f", arguments := [], result := some (JsValue.vNum 2),
          timestamp := 1 } = some (JsValue.vNum 2))
      ∧ JsValue.truthy (JsValue.vNum 2) = true
      ∧ ((Message.functionCalls
            { assistantMessage 0 with
              functionCalls := some
                [{ id := "f-1", name := "f", arguments := [],
                   result := some (JsValue.vNum 2), timestamp := 1 }] }).getD [])[0]?
          = some { id := "f-1", name := "f", arguments := [],
                   result := some (JsValue.vNum 2), timestamp := 1 }
      ∧ ((applyEventsMsg 0 [(StreamEvent.function_result "f" (JsValue.vNum 9), 3)]
            { assistantMessage 0 with
              functionCalls := some
                [{ id := "f-1", name := "f", arguments := [],
                   result := some (JsValue.vNum 2), timestamp := 1 }] }).functionCalls.getD [])[0]?
        = some { id := "f-1", name := "f", arguments := [],
                 result := some (JsValue.vNum 2), timestamp := 1 } :=
  ⟨rfl, rfl, rfl, c5_truthy_result_never_replaced 0 _ _ 0 _ (JsValue.vNum 2) rfl rfl rfl⟩

/-- Counterexample to C5 as stated: a falsy stored result (here `0`) is
treated as absent by the `!fc.result` guard, so a later
`function_result` event replaces it with `5`. -/
theorem c5_counterexample :
    (((updateMsg 0 2 (StreamEvent.function_result "f" (JsValue.vNum 0))
        (updateMsg 0 1 (StreamEvent.function_call "f" [])
          (assistantMessage 0))).functionCalls.getD []).map FunctionCall.result
        = [some (JsValue.vNum 0)])
      ∧ (((updateMsg 0 3 (StreamEvent.function_result "f" (JsValue.vNum 5))
          (updateMsg 0 2 (StreamEvent.function_result "f" (JsValue.vNum 0))
            (updateMsg 0 1 (StreamEvent.function_call "f" [])
              (assistantMessage 0)))).functionCalls.getD []).map FunctionCall.result
        = [some (JsValue.vNum 5)]) :=
  ⟨rfl, rfl⟩

/-- C1 (amended): a `function_result` event attaches its result to
*every* function-call record whose name matches and whose stored result
is absent or falsy — the `.map` over `functionCalls` has no
first-match-only policy; records failing the guard are unchanged. -/
theorem c1_result_attaches_to_every_unresolved_match (start now : Nat)
    (fname : String) (res : JsValue) (msg : Message) (i : Nat)
    (fc : FunctionCall)
    (hg : (msg.functionCalls.getD [])[i]? = some fc) :
    ((updateMsg start now (StreamEvent.function_result fname res) msg).functionCalls.getD [])[i]?
      = some (if fc.name == fname && resultFalsy fc.result then
                { fc with result := some res }
              else fc) := by
  simp only [updateMsg, Option.getD_some, List.getElem?_map, hg, Option.map_some']

/-- Witness for C1 at a concrete input: the second of two unresolved
`f` records also receives the result. -/
theorem c1_witness :
    ((Message.functionCalls (msgTwoUnresolvedF)).getD [])[1]? = some fcUnresolvedF2
      ∧ ((updateMsg 0 3 (StreamEvent.function_result "f" (JsValue.vNum 1))
            msgTwoUnresolvedF).functionCalls.getD [])[1]?
        = some (if fcUnresolvedF2.name == "f" && resultFalsy fcUnresolvedF2.result then
                  { fcUnresolvedF2 with result := some (JsValue.vNum 1) }
                else fcUnresolvedF2) :=
  ⟨rfl, c1_result_attaches_to_every_unresolved_match 0 3 "f" (JsValue.vNum 1)
      msgTwoUnresolvedF 1 fcUnresolvedF2 rfl⟩

/-- Counterexample to C1 as stated: after `function_call{name:"f"}`,
`function_call{name:"f"}`, `function_result{name:"f", result:1}`, *both*
`f` records carry result `1` — the second one is not left unresolved. -/
theorem c1_counterexample :
    ((updateMsg 0 3 (StreamEvent.function_result "f" (JsValue.vNum 1))
        (updateMsg 0 2 (StreamEvent.function_call "f" [])
          (updateMsg 0 1 (StreamEvent.function_call "f" [])
            (assistantMessage 0)))).functionCalls.getD []).map FunctionCall.result
      = [some (JsValue.vNum 1), some (JsValue.vNum 1)] :=
  rfl

/-- C4: the id of a function-call record is
`` `${data.function_name}-${Date.now()}` ``, so two `function_call`
events with the same name in the same wall-clock millisecond produce the
same id — the ids are not pairwise distinct. -/
theorem c4_duplicate_ids_same_millisecond :
    ((updateMsg 0 1000 (StreamEvent.function_call "f" [])
        (updateMsg 0 1000 (StreamEvent.function_call "f" [])
          (assistantMessage 0))).functionCalls.getD []).map FunctionCall.id
      = ["f-1000", "f-1000"] := by
  decide

/-- C8: a payload that fails to parse is skipped by the catch handler
without touching any state, so a malformed payload between two valid
`content` payloads produces exactly the state of the two valid payloads
alone — the content is the concatenation of only the valid fragments. -/
theorem c8_malformed_payload_skipped (start t1 t2 t3 : Nat) (aid : String)
    (a b : String) (s : ChatState) :
    applyPayloads start aid
        [(some (StreamEvent.content a), t1), (none, t2), (some (StreamEvent.content b), t3)] s
      = applyPayloads start aid
          [(some (StreamEvent.content a), t1), (some (StreamEvent.content b), t3)] s :=
  rfl

/-- C10: the id guard `msg.id !== assistantMessageId` makes every event
application — and the transport-failure catch block — leave every
message other than the active assistant message unchanged, in place. -/
theorem c10_other_messages_untouched (start now : Nat) (aid : String)
    (e : StreamEvent) (errText : String) (s : ChatState) (i : Nat)
    (m : Message) (hg : s.messages[i]? = some m) (hid : m.id ≠ aid) :
    (applyData start now aid e s).messages[i]? = some m
      ∧ (applyCatch aid errText s).messages[i]? = some m := by
  constructor
  · simp only [applyData, List.getElem?_map, hg, Option.map_some']
    simp [hid]
  · simp only [applyCatch, List.getElem?_map, hg, Option.map_some']
    simp [hid]

/-- Witness for C10 at a concrete input. -/
theorem c10_witness :
    (ChatState.messages ⟨[welcomeMessage 0], "T"⟩)[0]? = some (welcomeMessage 0)
      ∧ Message.id (welcomeMessage 0) ≠ "9"
      ∧ ((applyData 0 4 "9" (StreamEvent.content "x") ⟨[welcomeMessage 0], "T"⟩).messages[0]?
            = some (welcomeMessage 0)
          ∧ (applyCatch "9" "boom" ⟨[welcomeMessage 0], "T"⟩).messages[0]?
            = some (welcomeMessage 0)) :=
  ⟨rfl, by decide,
    c10_other_messages_untouched 0 4 "9" (StreamEvent.content "x") "boom"
      ⟨[welcomeMessage 0], "T"⟩ 0 (welcomeMessage 0) rfl (by decide)⟩

/-- The reducer step `updateMsg` never changes a message's id. -/
theorem updateMsg_id (start now : Nat) (e : StreamEvent) (m : Message) :
    (updateMsg start now e m).id = m.id := by
  cases e <;> simp [updateMsg]

/-- Applying an event keeps the id of every message in the list. -/
theorem applyData_ids (start now : Nat) (aid : String) (e : StreamEvent)
    (s : ChatState) :
    (applyData start now aid e s).messages.map Message.id
      = s.messages.map Message.id := by
  simp only [applyData, List.map_map]
  refine List.map_congr_left fun m _ => ?_
  by_cases h : m.id = aid
  · simp [h, updateMsg_id]
  · simp [h]

/-- Applying any payload sequence keeps the ids of all messages. -/
theorem applyPayloads_ids (start : Nat) (aid : String)
    (ps : List (Option StreamEvent × Nat)) (s : ChatState) :
    (applyPayloads start aid ps s).messages.map Message.id
      = s.messages.map Message.id := by
  induction ps generalizing s with
  | nil => rfl
  | cons p ps ih =>
    simp only [applyPayloads, List.foldl_cons]
    refine ((ih _).trans ?_)
    cases hp : p.1 with
    | none => rfl
    | some e => simpa [applyPayload, hp] using applyData_ids start p.2 aid e s

/-- An event tagged with an id that no current message carries is a
complete no-op: the map returns every message unchanged, and the
`thread_info` branch (which alone writes `threadId`) never runs. -/
theorem applyData_stale_noop (start now : Nat) (aid : String) (e : StreamEvent)
    (s : ChatState) (h : ∀ m ∈ s.messages, m.id ≠ aid) :
    applyData start now aid e s = s := by
  rcases s with ⟨msgs, tid⟩
  simp only [applyData]
  have hany : (msgs.any fun m => m.id == aid) = false := by
    rw [List.any_eq_false]
    intro m hm
    simpa using h m hm
  have hmap :
      (msgs.map fun msg =>
        if msg.id != aid then msg else updateMsg start now e msg) = msgs := by
    conv_rhs => rw [← List.map_id msgs]
    refine List.map_congr_left fun m hm => ?_
    simp [h m hm]
  simp only [ChatState.mk.injEq]
  refine ⟨hmap, ?_⟩
  cases e with
  | thread_info tid? =>
      cases tid? with
      | none => rfl
      | some t => simp [hany]
  | function_call fname args => rfl
  | function_result fname res => rfl
  | content c => rfl
  | intermediate => rfl
  | stream_complete => rfl
  | error err => rfl

/-- C3 (amended): after `handleNewChat` wipes the abandoned exchange's
messages and a new exchange begins — provided the abandoned exchange's
assistant id (derived from `Date.now()`) differs from the welcome id and
from the new exchange's two `Date.now()`-derived ids — any late event of
the abandoned generation, arriving after any amount of new-generation
stream activity, leaves the whole state (new message record and
`threadId` alike) unchanged. -/
theorem c3_stale_generation_is_noop (t0 t1 t2 start start2 now : Nat)
    (q : String) (s : ChatState) (ps : List (Option StreamEvent × Nat))
    (e : StreamEvent)
    (h1 : assistantMessageId t0 ≠ "1")
    (h2 : assistantMessageId t0 ≠ toString t1)
    (h3 : assistantMessageId t0 ≠ assistantMessageId t1) :
    applyData start2 now (assistantMessageId t0) e
        (applyPayloads start (assistantMessageId t1) ps
          (beginExchange t1 q (handleNewChat t2 s)))
      = applyPayloads start (assistantMessageId t1) ps
          (beginExchange t1 q (handleNewChat t2 s)) := by
  apply applyData_stale_noop
  intro m hm
  have hmem : m.id ∈
      (applyPayloads start (assistantMessageId t1) ps
        (beginExchange t1 q (handleNewChat t2 s))).messages.map Message.id :=
    List.mem_map_of_mem Message.id hm
  rw [applyPayloads_ids] at hmem
  simp only [beginExchange, handleNewChat, welcomeMessage, userMessage,
    assistantMessage, List.map_append, List.map_cons, List.map_nil] at hmem
  simp only [List.mem_append, List.mem_cons, List.not_mem_nil, or_false] at hmem
  rcases hmem with h | h | h
  · exact fun he => h1 (he ▸ h)
  · exact fun he => h2 (he ▸ h)
  · exact fun he => h3 (he ▸ h)

/-- Witness for C3 at a concrete input. -/
theorem c3_witness :
    (assistantMessageId 3 ≠ "1" ∧ assistantMessageId 3 ≠ toString 5
        ∧ assistantMessageId 3 ≠ assistantMessageId 5)
      ∧ applyData 0 9 (assistantMessageId 3) (StreamEvent.content "x")
          (applyPayloads 0 (assistantMessageId 5)
            [(some (StreamEvent.content "hi"), 7)]
            (beginExchange 5 "q" (handleNewChat 6 ⟨[], ""⟩)))
        = applyPayloads 0 (assistantMessageId 5)
            [(some (StreamEvent.content "hi"), 7)]
            (beginExchange 5 "q" (handleNewChat 6 ⟨[], ""⟩)) :=
  ⟨⟨by decide, by decide, by decide⟩,
    c3_stale_generation_is_noop 3 5 6 0 0 9 "q" ⟨[], ""⟩
      [(some (StreamEvent.content "hi"), 7)] (StreamEvent.content "x")
      (by decide) (by decide) (by decide)⟩

/-- Counterexample to C3 as stated: if the abandoned exchange and the
new one start in the same wall-clock millisecond (here 5), their
assistant ids collide, and a late `content` event of the abandoned
stream mutates the new exchange's assistant record (its content becomes
`"x"` instead of `""`). -/
theorem c3_counterexample :
    ((applyData 0 9 (assistantMessageId 5) (StreamEvent.content "x")
        (beginExchange 5 "q" (handleNewChat 5 ⟨[], ""⟩))).messages[2]?).map Message.content
      ≠ ((beginExchange 5 "q" (handleNewChat 5 ⟨[], ""⟩)).messages[2]?).map Message.content := by
  decide
